import Mathlib

/-!
Verification of the vrnetlab-style virtual-router orchestration repository:
the cross-connect packet plane (`vr-xcon/xcon.py`), the common VM supervisor
(`common/vrnetlab.py`), and the SR-OS / IOS-XR launchers
(`sros/docker/launch.py`, `xrv/docker/launch_xrv.py`).

Shallow embedding conventions: Python byte strings become `List Nat`
(each element one byte), Python sockets become `Nat` identifiers allocated
from a counter, Python dicts become association lists where a later
assignment is prepended (lookup finds the most recent binding), and
`sys.exit(1)` becomes `Except.error 1`.
-/

/-! ### Tcp2Tap framer, from `vr-xcon/xcon.py`, `Tcp2Tap.work` (lines 52-97)

The TCP-side state is `tcp_state` (source comment: 0 = reading size,
1 = reading packet), the receive buffer `tcp_buf` and the pending payload
byte count `tcp_remaining`.  Each select iteration that finds the client
readable appends the received chunk to `tcp_buf` and then runs the inner
`while True` parse loop until one of its `break`s fires. -/

inductive TcpFramerState where
  /-- `tcp_state == 0` in the source -/
  | readingSize : TcpFramerState
  /-- `tcp_state == 1` in the source -/
  | readingPayload : TcpFramerState
deriving DecidableEq, Repr

structure Tcp2TapState where
  tcp_state : TcpFramerState
  tcp_buf : List Nat
  tcp_remaining : Nat
deriving DecidableEq, Repr

/-- `socket.ntohl(struct.unpack("I", buf[:4])[0])` (xcon.py line 79): the
native-order unpack followed by `ntohl` reads the first four bytes as an
unsigned big-endian 32-bit integer, on either host endianness. -/
def be32 : List Nat → Nat
  | b0 :: b1 :: b2 :: b3 :: _ => ((b0 * 256 + b1) * 256 + b2) * 256 + b3
  | _ => 0

/-- One pass through the body of the inner `while True` loop of
`Tcp2Tap.work` that performs a single buffer-consuming action.
`none` models the `break` statements (lines 78 and 91); `some` returns the
updated state, the bytes written to the TAP by `os.write` (line 97), and
the number of 4-byte length headers consumed (line 80). -/
def framer_step (st : Tcp2TapState) : Option (Tcp2TapState × List Nat × Nat) :=
  match st.tcp_state with
  | .readingSize =>
      -- `if not len(self.tcp_buf) > 4: break` (note the source's strict `>`)
      if st.tcp_buf.length > 4 then
        some (⟨.readingPayload, st.tcp_buf.drop 4, be32 (st.tcp_buf.take 4)⟩, [], 1)
      else
        none
  | .readingPayload =>
      -- `if len(self.tcp_buf) < self.tcp_remaining: break`
      if st.tcp_buf.length < st.tcp_remaining then
        none
      else
        some (⟨.readingSize, st.tcp_buf.drop st.tcp_remaining, 0⟩,
              st.tcp_buf.take st.tcp_remaining, 0)

/-- Iterate `framer_step` until it breaks, collecting TAP output and header
count.  Fuel-indexed; `framer_fuel` below always suffices to reach the
break, so this is the parse loop run to exhaustion. -/
def framer_run : Nat → Tcp2TapState → Tcp2TapState × List Nat × Nat
  | 0, st => (st, [], 0)
  | fuel + 1, st =>
      match framer_step st with
      | none => (st, [], 0)
      | some (st2, out, h) =>
          let r := framer_run fuel st2
          (r.1, out ++ r.2.1, h + r.2.2)

/-- Termination measure for the parse loop: every `some` step strictly
decreases it (a header consumes 4 buffer bytes; a payload step may consume
0 bytes but moves `readingPayload` back to `readingSize`). -/
def framer_measure (st : Tcp2TapState) : Nat :=
  3 * st.tcp_buf.length + (match st.tcp_state with | .readingSize => 0 | .readingPayload => 2)

def framer_fuel (st : Tcp2TapState) : Nat :=
  3 * st.tcp_buf.length + 2

/-- One readable-client select iteration (xcon.py lines 61-97): append the
received chunk to `tcp_buf`, then run the parse loop to exhaustion. -/
def tcp_recv (st : Tcp2TapState) (chunk : List Nat) : Tcp2TapState × List Nat × Nat :=
  let st1 : Tcp2TapState := { st with tcp_buf := st.tcp_buf ++ chunk }
  framer_run (framer_fuel st1) st1

/-- Initial framer state from `Tcp2Tap.__init__` (lines 33-36):
`tcp_state = 0`, `tcp_buf = b''`, `tcp_remaining = 0`. -/
def tcp2tap_init : Tcp2TapState := ⟨.readingSize, [], 0⟩

/-- Feed a sequence of TCP reads through the framer, accumulating all TAP
output and all consumed headers. -/
def tcp_recv_all : Tcp2TapState → List (List Nat) → Tcp2TapState × List Nat × Nat
  | st, [] => (st, [], 0)
  | st, c :: rest =>
      let r := tcp_recv st c
      let r2 := tcp_recv_all r.1 rest
      (r2.1, r.2.1 ++ r2.2.1, r.2.2 + r2.2.2)

theorem framer_step_conserves {st st2 : Tcp2TapState} {out : List Nat} {h : Nat}
    (hs : framer_step st = some (st2, out, h)) :
    st2.tcp_buf.length + out.length + 4 * h = st.tcp_buf.length := by
  cases st with
  | mk state buf rem =>
    cases state <;> simp only [framer_step] at hs
    · split at hs
      · simp only [Option.some.injEq, Prod.mk.injEq] at hs
        obtain ⟨hst, hout, hh⟩ := hs
        subst hst hout hh
        simp only [List.length_drop, List.length_nil]
        omega
      · exact absurd hs (by simp)
    · split at hs
      · exact absurd hs (by simp)
      · simp only [Option.some.injEq, Prod.mk.injEq] at hs
        obtain ⟨hst, hout, hh⟩ := hs
        subst hst hout hh
        simp only [List.length_drop, List.length_take]
        omega

theorem framer_step_decreases {st st2 : Tcp2TapState} {out : List Nat} {h : Nat}
    (hs : framer_step st = some (st2, out, h)) :
    framer_measure st2 < framer_measure st := by
  cases st with
  | mk state buf rem =>
    cases state <;> simp only [framer_step] at hs
    · split at hs
      · simp only [Option.some.injEq, Prod.mk.injEq] at hs
        obtain ⟨hst, _, _⟩ := hs
        subst hst
        simp only [framer_measure, List.length_drop]
        omega
      · exact absurd hs (by simp)
    · split at hs
      · exact absurd hs (by simp)
      · simp only [Option.some.injEq, Prod.mk.injEq] at hs
        obtain ⟨hst, _, _⟩ := hs
        subst hst
        simp only [framer_measure, List.length_drop]
        omega

theorem framer_run_conserves (fuel : Nat) (st : Tcp2TapState) :
    (framer_run fuel st).1.tcp_buf.length + (framer_run fuel st).2.1.length
      + 4 * (framer_run fuel st).2.2 = st.tcp_buf.length := by
  induction fuel generalizing st with
  | zero => simp [framer_run]
  | succ n ih =>
    simp only [framer_run]
    cases hs : framer_step st with
    | none => simp
    | some r =>
      obtain ⟨st2, out, h⟩ := r
      have hc := framer_step_conserves hs
      have hr := ih st2
      simp only [List.length_append]
      omega

theorem framer_run_exhausts (fuel : Nat) (st : Tcp2TapState)
    (hf : framer_measure st ≤ fuel) :
    framer_step (framer_run fuel st).1 = none := by
  induction fuel generalizing st with
  | zero =>
    simp only [framer_run]
    cases hs : framer_step st with
    | none => rfl
    | some r =>
      obtain ⟨st2, out, h⟩ := r
      have := framer_step_decreases hs
      omega
  | succ n ih =>
    simp only [framer_run]
    cases hs : framer_step st with
    | none => exact hs
    | some r =>
      obtain ⟨st2, out, h⟩ := r
      have hd := framer_step_decreases hs
      exact ih st2 (by omega)

theorem tcp_recv_conserves (st : Tcp2TapState) (chunk : List Nat) :
    (tcp_recv st chunk).1.tcp_buf.length + (tcp_recv st chunk).2.1.length
      + 4 * (tcp_recv st chunk).2.2 = st.tcp_buf.length + chunk.length := by
  have h := framer_run_conserves (framer_fuel { st with tcp_buf := st.tcp_buf ++ chunk })
    { st with tcp_buf := st.tcp_buf ++ chunk }
  simp only [List.length_append] at h
  exact h

theorem tcp_recv_exhausts (st : Tcp2TapState) (chunk : List Nat) :
    framer_step (tcp_recv st chunk).1 = none := by
  apply framer_run_exhausts
  simp only [framer_measure, framer_fuel]
  cases st.tcp_state <;> simp

theorem tcp_recv_all_conserves (reads : List (List Nat)) (st : Tcp2TapState) :
    (tcp_recv_all st reads).1.tcp_buf.length + (tcp_recv_all st reads).2.1.length
      + 4 * (tcp_recv_all st reads).2.2
      = st.tcp_buf.length + (reads.map List.length).sum := by
  induction reads generalizing st with
  | nil => simp [tcp_recv_all]
  | cons c rest ih =>
    simp only [tcp_recv_all, List.map_cons, List.sum_cons, List.length_append]
    have h1 := tcp_recv_conserves st c
    have h2 := ih (tcp_recv st c).1
    omega

theorem tcp_recv_all_exhausts (reads : List (List Nat)) (st : Tcp2TapState)
    (hst : framer_step st = none) :
    framer_step (tcp_recv_all st reads).1 = none := by
  induction reads generalizing st with
  | nil => exact hst
  | cons c rest ih => exact ih (tcp_recv st c).1 (tcp_recv_exhausts st c)

/-- C5: for every sequence of TCP reads fed to the Tcp2Tap framer, after
running the parse loop to exhaustion (the final state accepts no further
parse step), the bytes still buffered plus the bytes written to the TAP
plus 4 bytes per fully parsed length header equal the total bytes received
on the TCP side: no byte is dropped or duplicated by the framer. -/
theorem tcp2tap_framer_conservation (reads : List (List Nat)) :
    (tcp_recv_all tcp2tap_init reads).1.tcp_buf.length
      + (tcp_recv_all tcp2tap_init reads).2.1.length
      + 4 * (tcp_recv_all tcp2tap_init reads).2.2
      = (reads.map List.length).sum
    ∧ framer_step (tcp_recv_all tcp2tap_init reads).1 = none := by
  constructor
  · have h := tcp_recv_all_conserves reads tcp2tap_init
    simpa [tcp2tap_init] using h
  · exact tcp_recv_all_exhausts reads tcp2tap_init (by decide)

/-- C4: starting from an empty buffer in state `reading_size`, receiving
the 8 TCP bytes `00 00 00 04 DE AD BE EF` in one read writes exactly the
4 bytes `DE AD BE EF` to the TAP, consumes one length header, and leaves
the framer back in state `reading_size` with an empty buffer. -/
theorem tcp2tap_single_frame :
    tcp_recv tcp2tap_init [0x00, 0x00, 0x00, 0x04, 0xDE, 0xAD, 0xBE, 0xEF]
      = (⟨.readingSize, [], 0⟩, [0xDE, 0xAD, 0xBE, 0xEF], 1) := by
  decide

/-! ### Tcp2Tap listener setup, from `vr-xcon/xcon.py` (lines 25-31, 244-246)

`Tcp2Tap.__init__(self, tap_intf='tap0', listen_port=10001)` executes
`self.s.bind(('::0', 10001))`: the bind port is the literal 10001, the
`listen_port` argument is never used.  The CLI entry point constructs
`Tcp2Tap(args.tap_if, 10000 + int(args.tap_listen))`. -/

set_option linter.unusedVariables false in
/-- The `(host, port)` pair passed to `bind` in `Tcp2Tap.__init__`.
Both arguments are ignored by the bind call in the source. -/
def tcp2tap_bind_addr (tap_intf : String) (listen_port : Nat) : String × Nat :=
  ("::0", 10001)

/-- The `listen_port` the CLI passes for `--tap-listen <suffix>`
(xcon.py line 245): `10000 + int(args.tap_listen)`. -/
def tap_listen_port (suffix : Nat) : Nat :=
  10000 + suffix

/-- C1 (code bug): with `--tap-listen 5` the CLI asks for listen port
10005, but the constructor binds the listener to the hardcoded port 10001,
not to the port named by its `listen_port` argument. -/
theorem tcp2tap_listen_port_ignored :
    tap_listen_port 5 = 10005
    ∧ (tcp2tap_bind_addr "tap0" (tap_listen_port 5)).2 = 10001
    ∧ (tcp2tap_bind_addr "tap0" (tap_listen_port 5)).2 ≠ tap_listen_port 5 := by
  decide

/-! ### Bootstrap spin watchdogs

From `sros/docker/launch.py`, `SROS_vm.bootstrap_spin` (lines 76-114) and
`xrv/docker/launch_xrv.py`, `XRV.bootstrap_spin` (lines 143-200).

A spin consumes the result of `self.tn.expect(patterns, 1)`, modelled as
an optional matched pattern index `ridx` plus the preceding console bytes
`res`.  The effect of a spin on the supervisor-visible state is recorded
explicitly: whether the VM was stopped and started again, the new spin
counter, and (for SR-OS) whether `running` was set / (for XRV) the
`(done, success)` return value. -/

structure SrosSpinResult where
  /-- did the spin execute `self.stop(); self.start()`? -/
  restarted : Bool
  /-- value of `self.spins` after the spin -/
  spins : Nat
  /-- value of `self.running` after the spin -/
  running : Bool
  /-- did the spin run `bootstrap_config` and close the console? -/
  configured : Bool
deriving DecidableEq, Repr

/-- `SROS_vm.bootstrap_spin`.  `ridx` is the index matched by
`expect([b"Login:", b"^[^ ]+#"], 1)` (`none` on timeout), `res` the bytes
read before the match or timeout. -/
def sros_bootstrap_spin (spins : Nat) (ridx : Option (Fin 2)) (res : List Nat) :
    SrosSpinResult :=
  if spins > 60 then
    -- no output from serial console: restart the VM, reset the counter
    ⟨true, 0, false, false⟩
  else
    match ridx with
    | some _ =>
        -- (after logging in when ridx == 0) run bootstrap_config, close
        -- the console, set running and return without touching spins
        ⟨false, spins, true, true⟩
    | none =>
        ⟨false, (if res ≠ [] then 0 else spins) + 1, false, false⟩

structure XrvSpinResult where
  /-- first component of the Python return value -/
  done : Bool
  /-- second component of the Python return value -/
  success : Bool
  /-- did the spin stop and start the VM again?  (No code path does.) -/
  restarted : Bool
  /-- value of `self.spins` after the spin -/
  spins : Nat
  /-- value of `self.xr_ready` after the spin -/
  xr_ready : Bool
  /-- value of `self.credentials` after the spin -/
  credentials : List (String × String)
deriving DecidableEq, Repr

/-- The fall-through tail of `XRV.bootstrap_spin`: reset `spins` when any
console output was seen, increment it, and return `(False, False)`. -/
def xrv_spin_continue (spins : Nat) (res : List Nat) (ready : Bool)
    (creds : List (String × String)) : XrvSpinResult :=
  ⟨false, false, false, (if res ≠ [] then 0 else spins) + 1, ready, creds⟩

/-- `XRV.bootstrap_spin`.  `ridx` indexes the five expect patterns
(`Press RETURN...`, `SYSTEM CONFIGURATION COMPLETE`, `Enter root-system
username`, `Username:`, `^[^ ]+#`). -/
def xrv_bootstrap_spin (username password : String) (spins : Nat) (xr_ready : Bool)
    (creds : List (String × String)) (ridx : Option (Fin 5)) (res : List Nat) :
    XrvSpinResult :=
  if spins > 300 then
    -- too many spins with no result -> give up
    ⟨true, false, false, spins, xr_ready, creds⟩
  else
    match ridx with
    | some 0 => xrv_spin_continue spins res xr_ready creds
    | some 1 => xrv_spin_continue spins res true creds
    | some 2 => xrv_spin_continue spins res xr_ready ((username, password) :: creds)
    | some 3 =>
        match creds with
        | [] => ⟨true, false, false, spins, xr_ready, creds⟩
        | _ :: rest => xrv_spin_continue spins res xr_ready rest
    | some 4 =>
        if xr_ready then ⟨true, true, false, spins, xr_ready, creds⟩
        else xrv_spin_continue spins res xr_ready creds
    | none => xrv_spin_continue spins res xr_ready creds

/-- C2 (counterexample): an IOS-XR bootstrap spin that finds the counter
above its 300 threshold does NOT kill and restart the VM: it gives up,
returning done-with-failure, with the spin counter not reset. -/
theorem xrv_spin_threshold_no_restart :
    (xrv_bootstrap_spin "u" "p" 301 false [("admin", "admin")] none []).restarted = false
    ∧ (xrv_bootstrap_spin "u" "p" 301 false [("admin", "admin")] none []).done = true
    ∧ (xrv_bootstrap_spin "u" "p" 301 false [("admin", "admin")] none []).success = false
    ∧ (xrv_bootstrap_spin "u" "p" 301 false [("admin", "admin")] none []).spins = 301 := by
  decide

/-- C2 (amended): when a bootstrap spin finds the spin counter above the
variant's threshold, the SR-OS variant (threshold 60) kills and restarts
the VM, resets the spin counter and leaves `running` false so supervision
continues; the IOS-XR variant (threshold 300) instead gives up: the spin
reports done-with-failure without restarting the VM or resetting the
counter. -/
theorem bootstrap_spin_threshold_behavior
    (sros_spins xrv_spins : Nat) (ridx2 : Option (Fin 2)) (res : List Nat)
    (username password : String) (xr_ready : Bool)
    (creds : List (String × String)) (ridx5 : Option (Fin 5))
    (h60 : sros_spins > 60) (h300 : xrv_spins > 300) :
    sros_bootstrap_spin sros_spins ridx2 res = ⟨true, 0, false, false⟩
    ∧ xrv_bootstrap_spin username password xrv_spins xr_ready creds ridx5 res
        = ⟨true, false, false, xrv_spins, xr_ready, creds⟩ := by
  constructor
  · simp [sros_bootstrap_spin, h60]
  · simp [xrv_bootstrap_spin, h300]

theorem bootstrap_spin_threshold_behavior_witness :
    sros_bootstrap_spin 61 none [] = ⟨true, 0, false, false⟩
    ∧ xrv_bootstrap_spin "u" "p" 301 false [] none [] = ⟨true, false, false, 301, false, []⟩ :=
  bootstrap_spin_threshold_behavior 61 301 none [] "u" "p" false [] none
    (by decide) (by decide)

/-! ### SR-OS VM selection, from `sros/docker/launch.py`, `SROS.__init__`
(lines 362-381)

`sys.exit(1)` is modelled as `.exit 1`.  Every SR-OS VM construction goes
through `SROS_vm.__init__` (launch.py line 68), which calls
`vrnetlab.VM.__init__(username, password, disk_image="/sros.qcow2",
num=num, cpus=2, ram=ram)`; but `vrnetlab.VM.__init__` (vrnetlab.py
line 41) is `def __init__(self, username, password, disk_image=None,
num=0, ram=4096)` - it has no `cpus` parameter and no `**kwargs`, so the
call raises `TypeError` and no SR-OS VM is ever constructed.  The no-
license `sys.exit(1)` happens before any construction (launch.py lines
369-372) and is reachable. -/

inductive SrosVM where
  | integrated : SrosVM
  | cp (num_lc : Nat) : SrosVM
  | lc (slot : Nat) : SrosVM
deriving DecidableEq, Repr

/-- `math.ceil(num_nics / 6)` on a nonnegative integer. -/
def sros_num_lc (num_nics : Nat) : Nat :=
  (num_nics + 5) / 6

/-- The named parameters of `vrnetlab.VM.__init__` (vrnetlab.py line 41),
`self` aside. -/
def vm_init_params : List String :=
  ["username", "password", "disk_image", "num", "ram"]

/-- The keyword arguments `SROS_vm.__init__` passes to
`vrnetlab.VM.__init__` (launch.py line 68). -/
def sros_vm_super_kwargs : List String :=
  ["disk_image", "num", "cpus", "ram"]

/-- A Python call raises `TypeError` when it passes a keyword argument
that is not among the callee's named parameters (the callee here has no
`**kwargs`). -/
def kwargs_type_error (kwargs params : List String) : Bool :=
  kwargs.any fun k => !(params.contains k)

/-- Does constructing any SR-OS VM raise?  All three variants construct
through `SROS_vm.__init__`, whose `super().__init__` call carries
`cpus=2`. -/
def sros_vm_init_raises : Bool :=
  kwargs_type_error sros_vm_super_kwargs vm_init_params

inductive SrosInitResult where
  | ok (vms : List SrosVM)
  | exit (code : Nat)
  | typeError
deriving DecidableEq, Repr

/-- The outcome of `SROS.__init__`: the no-license check precedes any VM
construction; each `self.vms` assignment constructs VMs and therefore
raises when `sros_vm_init_raises` (the `.ok` lists record what the
assignments would build). -/
def sros_init (num_nics : Nat) (license : Bool) : SrosInitResult :=
  if num_nics > 5 then
    if !license then
      .exit 1
    else
      -- `self.vms = [ SROS_cp(...) ] ; self.vms.append(SROS_lc(i))`
      if sros_vm_init_raises then .typeError
      else .ok (.cp (sros_num_lc num_nics)
                 :: (List.range' 1 (sros_num_lc num_nics)).map .lc)
  else
    -- `self.vms = [ SROS_integrated(...) ]`
    if sros_vm_init_raises then .typeError
    else .ok [.integrated]

/-- C7 (code bug): `SROS.__init__` does exit with status 1 when more than
5 NICs are requested without a license (that check precedes any VM
construction), but it never instantiates the claimed VM lists: every
SR-OS VM construction raises `TypeError`, because `SROS_vm.__init__`
passes `cpus=2` to `vrnetlab.VM.__init__`, which has no such parameter. -/
theorem sros_init_type_error :
    "cpus" ∈ sros_vm_super_kwargs
    ∧ "cpus" ∉ vm_init_params
    ∧ sros_vm_init_raises = true
    ∧ sros_init 5 true = .typeError
    ∧ sros_init 5 false = .typeError
    ∧ sros_init 6 true = .typeError
    ∧ sros_init 13 true = .typeError
    ∧ sros_init 6 false = .exit 1
    ∧ sros_init 13 false = .exit 1 := by
  decide

/-! ### Supervisor health loop, from `common/vrnetlab.py`, `VR.start`
(lines 210-233) and `VR.update_health` (lines 203-206)

Each pass of the infinite supervision loop computes `all_running` over the
VMs and writes `/health` with exactly one of three messages.  The loop is
modelled over the sequence of per-pass `all_running` values; `started` is
the flag set the first time a pass sees every VM running. -/

/-- The `(exit_status, message)` written to `/health` on one pass, given
the `started` flag as of the start of the pass and this pass's
`all_running` value. -/
def health_msg (started all_running : Bool) : Nat × String :=
  if all_running then (0, "running")
  else if started then (1, "VM failed - restarting")
  else (1, "starting")

/-- The supervision loop of `VR.start`, restricted to a finite prefix of
passes: each pass writes its health message and updates `started`. -/
def supervise (started : Bool) : List Bool → List (Nat × String)
  | [] => []
  | b :: rest => health_msg started b :: supervise (started || b) rest

/-- The `/health` contents written on each pass, starting from
`started = False` as in `VR.start`. -/
def health_trace (passes : List Bool) : List (Nat × String) :=
  supervise false passes

theorem supervise_getElem (passes : List Bool) (started : Bool) (k : Nat) :
    (supervise started passes)[k]?
      = (passes[k]?).map (health_msg (started || (passes.take k).any id)) := by
  induction passes generalizing started k with
  | nil => simp [supervise]
  | cons b rest ih =>
    cases k with
    | zero => simp [supervise]
    | succ k =>
      simp only [supervise, List.getElem?_cons_succ, List.take_succ_cons,
        List.any_cons, id, ih]
      rw [Bool.or_assoc]

theorem any_take_iff (l : List Bool) (k : Nat) :
    (l.take k).any id = true ↔ ∃ j, j < k ∧ l[j]? = some true := by
  induction l generalizing k with
  | nil => simp
  | cons b rest ih =>
    cases k with
    | zero => simp
    | succ k =>
      simp only [List.take_succ_cons, List.any_cons, id, Bool.or_eq_true]
      constructor
      · rintro (hb | hany)
        · exact ⟨0, by omega, by simp [hb]⟩
        · obtain ⟨j, hj, hjt⟩ := (ih k).mp hany
          exact ⟨j + 1, by omega, by simpa using hjt⟩
      · rintro ⟨j, hj, hjt⟩
        cases j with
        | zero => exact Or.inl (by simpa using hjt)
        | succ j => exact Or.inr ((ih k).mpr ⟨j, by omega, by simpa using hjt⟩)

theorem any_take_false_iff (l : List Bool) (k : Nat) (hk : k ≤ l.length) :
    (l.take k).any id = false ↔ ∀ j, j < k → l[j]? = some false := by
  rw [← Bool.not_eq_true, not_iff_comm, any_take_iff]
  constructor
  · intro h
    simp only [not_forall] at h
    obtain ⟨j, hj, hne⟩ := h
    have hjl : j < l.length := by omega
    refine ⟨j, hj, ?_⟩
    rw [List.getElem?_eq_getElem hjl] at hne ⊢
    cases hb : l[j] with
    | true => rfl
    | false => exact absurd (by rw [hb]) hne
  · rintro ⟨j, hj, hjt⟩ hall
    rw [hall j hj] at hjt
    simp at hjt

theorem health_running_iff (passes : List Bool) (k : Nat) (hk : k < passes.length) :
    (health_trace passes)[k]? = some (0, "running") ↔ passes[k]? = some true := by
  have hget := supervise_getElem passes false k
  simp only [Bool.false_or] at hget
  rw [health_trace, hget, List.getElem?_eq_getElem hk]
  cases hb : passes[k] <;>
    cases hA : (passes.take k).any id <;>
      simp [health_msg]

theorem health_starting_iff (passes : List Bool) (k : Nat) (hk : k < passes.length) :
    (health_trace passes)[k]? = some (1, "starting")
      ↔ (passes[k]? = some false ∧ ∀ j, j < k → passes[j]? = some false) := by
  have hget := supervise_getElem passes false k
  simp only [Bool.false_or] at hget
  have hAf := any_take_false_iff passes k (by omega)
  rw [health_trace, hget, List.getElem?_eq_getElem hk]
  cases hb : passes[k] with
  | false =>
    cases hA : (passes.take k).any id with
    | false =>
      simp only [Option.map_some', Option.some.injEq]
      exact iff_of_true (by decide) ⟨by simp, hAf.mp hA⟩
    | true =>
      have hnall : ¬ ∀ j, j < k → passes[j]? = some false := by
        intro hall
        rw [← hAf, hA] at hall
        exact absurd hall (by simp)
      simp only [Option.map_some', Option.some.injEq]
      exact iff_of_false (by decide) (fun hc => hnall hc.2)
  | true =>
    simp only [Option.map_some', Option.some.injEq]
    exact iff_of_false (by cases (passes.take k).any id <;> decide)
      (fun hc => by exact absurd hc.1 (by simp))

theorem health_failed_iff (passes : List Bool) (k : Nat) (hk : k < passes.length) :
    (health_trace passes)[k]? = some (1, "VM failed - restarting")
      ↔ (passes[k]? = some false ∧ ∃ j, j < k ∧ passes[j]? = some true) := by
  have hget := supervise_getElem passes false k
  simp only [Bool.false_or] at hget
  have hAt := any_take_iff passes k
  rw [health_trace, hget, List.getElem?_eq_getElem hk]
  cases hb : passes[k] with
  | false =>
    cases hA : (passes.take k).any id with
    | false =>
      have hnex : ¬ ∃ j, j < k ∧ passes[j]? = some true := by
        rw [← hAt, hA]
        simp
      simp only [Option.map_some', Option.some.injEq]
      exact iff_of_false (by decide) (fun hc => hnex hc.2)
    | true =>
      simp only [Option.map_some', Option.some.injEq]
      exact iff_of_true (by decide) ⟨by simp, hAt.mp hA⟩
  | true =>
    simp only [Option.map_some', Option.some.injEq]
    exact iff_of_false (by cases (passes.take k).any id <;> decide)
      (fun hc => by exact absurd hc.1 (by simp))

/-- C6: on every pass, `/health` gets `0 running` exactly when every VM
reports running on that pass, `1 starting` exactly when not all are
running and no earlier pass had all running, and `1 VM failed -
restarting` exactly when not all are running but some earlier pass had
all running; the transition from `1 starting` to `0 running` at a pass
`k > 0` happens precisely when `k` is the first pass on which all VMs are
running (hence it happens exactly once). -/
theorem supervisor_health_spec (passes : List Bool) (k : Nat) (hk : k < passes.length) :
    ((health_trace passes)[k]? = some (0, "running") ↔ passes[k]? = some true)
    ∧ ((health_trace passes)[k]? = some (1, "starting")
        ↔ (passes[k]? = some false ∧ ∀ j, j < k → passes[j]? = some false))
    ∧ ((health_trace passes)[k]? = some (1, "VM failed - restarting")
        ↔ (passes[k]? = some false ∧ ∃ j, j < k ∧ passes[j]? = some true))
    ∧ (0 < k →
        (((health_trace passes)[k - 1]? = some (1, "starting")
            ∧ (health_trace passes)[k]? = some (0, "running"))
          ↔ (passes[k]? = some true ∧ ∀ j, j < k → passes[j]? = some false))) := by
  refine ⟨health_running_iff passes k hk, health_starting_iff passes k hk,
          health_failed_iff passes k hk, fun hk0 => ?_⟩
  rw [health_running_iff passes k hk,
      health_starting_iff passes (k - 1) (by omega)]
  constructor
  · rintro ⟨⟨hprev, hall⟩, hkt⟩
    refine ⟨hkt, fun j hj => ?_⟩
    rcases Nat.lt_or_ge j (k - 1) with hlt | hge
    · exact hall j hlt
    · have : j = k - 1 := by omega
      rw [this]
      exact hprev
  · rintro ⟨hkt, hall⟩
    exact ⟨⟨hall (k - 1) (by omega), fun j hj => hall j (by omega)⟩, hkt⟩

theorem supervisor_health_spec_witness :
    (health_trace [false, false, true])[2]? = some (0, "running")
      ↔ ([false, false, true] : List Bool)[2]? = some true :=
  (supervisor_health_spec [false, false, true] 2 (by decide)).1

/-! ### UUID part reversal, from `sros/docker/launch.py`, `uuid_rev_part`
(lines 54-61)

The Python loop walks the index pairs `(i, i+1)` for `i` in
`reversed(range(0, len(part), 2))`, appending `part[i]` then `part[i+1]`:
it emits the two-character chunks of the input in reverse chunk order.
On an odd-length input the final iteration reads `part[i+1]` past the end
and raises `IndexError`, modelled as `none`. -/

def uuid_rev_part_chars : List Char → Option (List Char)
  | [] => some []
  | [_] => none
  | a :: b :: rest => (uuid_rev_part_chars rest).map (· ++ [a, b])

def uuid_rev_part (s : String) : Option String :=
  (uuid_rev_part_chars s.data).map fun l => ⟨l⟩

theorem uuid_rev_part_chars_append_pair_aux :
    ∀ (n : Nat) (t : List Char), t.length ≤ n → ∀ (r : List Char) (a b : Char),
      uuid_rev_part_chars t = some r →
      uuid_rev_part_chars (t ++ [a, b]) = some (a :: b :: r) := by
  intro n
  induction n with
  | zero =>
    intro t ht r a b h
    cases t with
    | nil =>
      simp only [uuid_rev_part_chars, Option.some.injEq] at h
      subst h
      rfl
    | cons x rest => simp at ht
  | succ n ih =>
    intro t ht r a b h
    cases t with
    | nil =>
      simp only [uuid_rev_part_chars, Option.some.injEq] at h
      subst h
      rfl
    | cons x t1 =>
      cases t1 with
      | nil => simp [uuid_rev_part_chars] at h
      | cons y rest =>
        simp only [uuid_rev_part_chars] at h
        cases hr : uuid_rev_part_chars rest with
        | none => rw [hr] at h; simp at h
        | some r2 =>
          rw [hr] at h
          simp only [Option.map_some', Option.some.injEq] at h
          subst h
          have hrec := ih rest (by simp at ht; omega) r2 a b hr
          rw [List.cons_append, List.cons_append]
          show (uuid_rev_part_chars (rest ++ [a, b])).map (fun l => l ++ [x, y]) = _
          rw [hrec]
          simp

theorem uuid_rev_part_chars_append_pair {t r : List Char} (a b : Char)
    (h : uuid_rev_part_chars t = some r) :
    uuid_rev_part_chars (t ++ [a, b]) = some (a :: b :: r) :=
  uuid_rev_part_chars_append_pair_aux t.length t le_rfl r a b h

theorem uuid_rev_part_chars_invol_aux :
    ∀ (n : Nat) (t : List Char), t.length ≤ n → ∀ (r : List Char),
      uuid_rev_part_chars t = some r → uuid_rev_part_chars r = some t := by
  intro n
  induction n with
  | zero =>
    intro t ht r h
    cases t with
    | nil =>
      simp only [uuid_rev_part_chars, Option.some.injEq] at h
      subst h
      rfl
    | cons x rest => simp at ht
  | succ n ih =>
    intro t ht r h
    cases t with
    | nil =>
      simp only [uuid_rev_part_chars, Option.some.injEq] at h
      subst h
      rfl
    | cons x t1 =>
      cases t1 with
      | nil => simp [uuid_rev_part_chars] at h
      | cons y rest =>
        simp only [uuid_rev_part_chars] at h
        cases hr : uuid_rev_part_chars rest with
        | none => rw [hr] at h; simp at h
        | some r2 =>
          rw [hr] at h
          simp only [Option.map_some', Option.some.injEq] at h
          subst h
          have hrec := ih rest (by simp at ht; omega) r2 hr
          exact uuid_rev_part_chars_append_pair x y hrec

theorem uuid_rev_part_chars_total :
    ∀ (n : Nat) (t : List Char), t.length ≤ n → t.length % 2 = 0 →
      ∃ r, uuid_rev_part_chars t = some r := by
  intro n
  induction n with
  | zero =>
    intro t ht _
    cases t with
    | nil => exact ⟨[], rfl⟩
    | cons x rest => simp at ht
  | succ n ih =>
    intro t ht he
    cases t with
    | nil => exact ⟨[], rfl⟩
    | cons x t1 =>
      cases t1 with
      | nil => simp at he
      | cons y rest =>
        obtain ⟨r, hr⟩ := ih rest (by simp at ht; omega) (by simp at he ⊢; omega)
        exact ⟨r ++ [x, y], by simp [uuid_rev_part_chars, hr]⟩

/-- C9: `uuid_rev_part` is an involution on even-length strings: it
succeeds, and applying it to its own result returns the input. -/
theorem uuid_rev_part_involution (s : String) (h : s.data.length % 2 = 0) :
    ∃ t, uuid_rev_part s = some t ∧ uuid_rev_part t = some s := by
  obtain ⟨r, hr⟩ := uuid_rev_part_chars_total s.data.length s.data le_rfl h
  refine ⟨⟨r⟩, ?_, ?_⟩
  · simp [uuid_rev_part, hr]
  · have hinv := uuid_rev_part_chars_invol_aux s.data.length s.data le_rfl r hr
    simp [uuid_rev_part, hinv]

theorem uuid_rev_part_involution_witness :
    ∃ t, uuid_rev_part "c0ffee12" = some t ∧ uuid_rev_part t = some "c0ffee12" :=
  uuid_rev_part_involution "c0ffee12" (by decide)

/-! ### TcpBridge peer registration, from `vr-xcon/xcon.py`,
`TcpBridge.add_p2p` (lines 130-160)

`add_p2p` creates two fresh sockets (modelled as identifiers allocated
from a counter), records their `router/interface` labels in
`socket2hostintf`, attempts to connect each one (any exception is caught
and only logged, so the outcome has no effect on the registered state),
appends both to `self.sockets`, and records them as each other's peer in
`socket2remote`.  Dict assignment is modelled by prepending to an
association list; `dict_lookup` returns the most recent binding. -/

def dict_lookup {α : Type} (k : Nat) : List (Nat × α) → Option α
  | [] => none
  | (k2, v) :: rest => if k = k2 then some v else dict_lookup k rest

structure P2pCall where
  src_router : String
  src_interface : String
  dst_router : String
  dst_interface : String
  /-- did `left.connect(src)` succeed?  (failure is caught and logged) -/
  src_connect_ok : Bool
  /-- did `right.connect(dst)` succeed?  (failure is caught and logged) -/
  dst_connect_ok : Bool

structure BridgeState where
  next_sock : Nat
  sockets : List Nat
  socket2remote : List (Nat × Nat)
  socket2hostintf : List (Nat × String)

def bridge_init : BridgeState := ⟨0, [], [], []⟩

def add_p2p (st : BridgeState) (c : P2pCall) : BridgeState :=
  let left := st.next_sock
  let right := st.next_sock + 1
  { next_sock := st.next_sock + 2
    sockets := st.sockets ++ [left, right]
    socket2remote := (left, right) :: (right, left) :: st.socket2remote
    socket2hostintf :=
      (left, c.src_router ++ "/" ++ c.src_interface)
        :: (right, c.dst_router ++ "/" ++ c.dst_interface)
        :: st.socket2hostintf }

theorem add_p2p_next (st : BridgeState) (c : P2pCall) :
    (add_p2p st c).next_sock = st.next_sock + 2 := rfl

theorem add_p2p_sockets (st : BridgeState) (c : P2pCall) :
    (add_p2p st c).sockets = st.sockets ++ [st.next_sock, st.next_sock + 1] := rfl

theorem add_p2p_remote (st : BridgeState) (c : P2pCall) :
    (add_p2p st c).socket2remote
      = (st.next_sock, st.next_sock + 1) :: (st.next_sock + 1, st.next_sock)
          :: st.socket2remote := rfl

theorem add_p2p_hostintf (st : BridgeState) (c : P2pCall) :
    (add_p2p st c).socket2hostintf
      = (st.next_sock, c.src_router ++ "/" ++ c.src_interface)
          :: (st.next_sock + 1, c.dst_router ++ "/" ++ c.dst_interface)
          :: st.socket2hostintf := rfl

/-- The state invariant of `TcpBridge`: socket identifiers are below the
allocation counter, and every registered socket has a peer entry whose
entry points back, with the peer itself registered and a
`host/interface` label present for the socket. -/
def BridgeInv (st : BridgeState) : Prop :=
  (∀ s ∈ st.sockets, s < st.next_sock)
  ∧ (∀ s ∈ st.sockets, ∃ r,
      dict_lookup s st.socket2remote = some r
      ∧ dict_lookup r st.socket2remote = some s
      ∧ r ∈ st.sockets
      ∧ r ≠ s
      ∧ (∃ lbl, dict_lookup s st.socket2hostintf = some lbl))

theorem dict_lookup_fresh {α : Type} (k k2 : Nat) (v : α) (rest : List (Nat × α))
    (hne : k ≠ k2) : dict_lookup k ((k2, v) :: rest) = dict_lookup k rest := by
  simp [dict_lookup, hne]

theorem bridge_inv_init : BridgeInv bridge_init := by
  constructor <;> simp [bridge_init]

theorem bridge_inv_add (st : BridgeState) (c : P2pCall) (hinv : BridgeInv st) :
    BridgeInv (add_p2p st c) := by
  obtain ⟨hsk, hmain⟩ := hinv
  constructor
  · intro s hs
    rw [add_p2p_sockets] at hs
    rw [add_p2p_next]
    simp only [List.mem_append, List.mem_cons, List.not_mem_nil, or_false] at hs
    rcases hs with hs | hs | hs
    · have := hsk s hs
      omega
    · omega
    · omega
  · intro s hs
    rw [add_p2p_sockets] at hs
    simp only [List.mem_append, List.mem_cons, List.not_mem_nil, or_false] at hs
    rcases hs with hs | hs | hs
    · -- an old socket: all lookups skip the two fresh entries
      obtain ⟨r, hr1, hr2, hrmem, hrne, lbl, hlbl⟩ := hmain s hs
      have hslt := hsk s hs
      have hrlt := hsk r hrmem
      refine ⟨r, ?_, ?_, ?_, hrne, lbl, ?_⟩
      · rw [add_p2p_remote, dict_lookup_fresh _ _ _ _ (by omega),
          dict_lookup_fresh _ _ _ _ (by omega)]
        exact hr1
      · rw [add_p2p_remote, dict_lookup_fresh _ _ _ _ (by omega),
          dict_lookup_fresh _ _ _ _ (by omega)]
        exact hr2
      · rw [add_p2p_sockets]
        exact List.mem_append.mpr (Or.inl hrmem)
      · rw [add_p2p_hostintf, dict_lookup_fresh _ _ _ _ (by omega),
          dict_lookup_fresh _ _ _ _ (by omega)]
        exact hlbl
    · -- the fresh left socket pairs with the fresh right socket
      subst hs
      refine ⟨st.next_sock + 1, ?_, ?_, ?_, by omega, ?_⟩
      · rw [add_p2p_remote]
        simp [dict_lookup]
      · rw [add_p2p_remote, dict_lookup_fresh _ _ _ _ (by omega)]
        simp [dict_lookup]
      · rw [add_p2p_sockets]
        simp
      · refine ⟨c.src_router ++ "/" ++ c.src_interface, ?_⟩
        rw [add_p2p_hostintf]
        simp [dict_lookup]
    · -- the fresh right socket pairs with the fresh left socket
      subst hs
      refine ⟨st.next_sock, ?_, ?_, ?_, by omega, ?_⟩
      · rw [add_p2p_remote, dict_lookup_fresh _ _ _ _ (by omega)]
        simp [dict_lookup]
      · rw [add_p2p_remote]
        simp [dict_lookup]
      · rw [add_p2p_sockets]
        simp
      · refine ⟨c.dst_router ++ "/" ++ c.dst_interface, ?_⟩
        rw [add_p2p_hostintf, dict_lookup_fresh _ _ _ _ (by omega)]
        simp [dict_lookup]

theorem bridge_inv_foldl (calls : List P2pCall) (st : BridgeState) (hinv : BridgeInv st) :
    BridgeInv (calls.foldl add_p2p st) := by
  induction calls generalizing st with
  | nil => exact hinv
  | cons c rest ih => exact ih (add_p2p st c) (bridge_inv_add st c hinv)

/-- C10: after any sequence of `add_p2p` calls (with arbitrary connect
outcomes, which do not influence the registered state), the peer map is a
total involution on the registered sockets: every socket in `sockets` has
a peer in `socket2remote`, the peer's entry points back, the peer is
itself registered, and the socket has a `host/interface` label in
`socket2hostintf` - and one `add_p2p` step registers both endpoints with
exactly their `router/interface` labels regardless of the connect flags,
which is what permits lazy reconnection on later ticks. -/
theorem tcp_bridge_peer_involution (calls : List P2pCall)
    (s : Nat) (hs : s ∈ (calls.foldl add_p2p bridge_init).sockets) :
    (∃ r,
      dict_lookup s (calls.foldl add_p2p bridge_init).socket2remote = some r
      ∧ dict_lookup r (calls.foldl add_p2p bridge_init).socket2remote = some s
      ∧ r ∈ (calls.foldl add_p2p bridge_init).sockets
      ∧ r ≠ s
      ∧ (∃ lbl, dict_lookup s (calls.foldl add_p2p bridge_init).socket2hostintf = some lbl))
    ∧ (∀ (st : BridgeState) (c : P2pCall) (b1 b2 : Bool),
        add_p2p st { c with src_connect_ok := b1, dst_connect_ok := b2 } = add_p2p st c
        ∧ dict_lookup st.next_sock (add_p2p st c).socket2hostintf
            = some (c.src_router ++ "/" ++ c.src_interface)
        ∧ dict_lookup (st.next_sock + 1) (add_p2p st c).socket2hostintf
            = some (c.dst_router ++ "/" ++ c.dst_interface)) := by
  constructor
  · exact (bridge_inv_foldl calls bridge_init bridge_inv_init).2 s hs
  · intro st c b1 b2
    refine ⟨rfl, ?_, ?_⟩
    · rw [add_p2p_hostintf]
      simp [dict_lookup]
    · rw [add_p2p_hostintf, dict_lookup_fresh _ _ _ _ (by omega)]
      simp [dict_lookup]

theorem tcp_bridge_peer_involution_witness :
    ∃ r,
      dict_lookup 0
          (([⟨"r1", "1", "r2", "2", true, false⟩] : List P2pCall).foldl
            add_p2p bridge_init).socket2remote = some r
      ∧ dict_lookup r
          (([⟨"r1", "1", "r2", "2", true, false⟩] : List P2pCall).foldl
            add_p2p bridge_init).socket2remote = some 0
      ∧ r ∈ (([⟨"r1", "1", "r2", "2", true, false⟩] : List P2pCall).foldl
            add_p2p bridge_init).sockets
      ∧ r ≠ 0
      ∧ (∃ lbl, dict_lookup 0
          (([⟨"r1", "1", "r2", "2", true, false⟩] : List P2pCall).foldl
            add_p2p bridge_init).socket2hostintf = some lbl) :=
  (tcp_bridge_peer_involution [⟨"r1", "1", "r2", "2", true, false⟩] 0 (by decide)).1

/-! ### MAC address generation, from `common/vrnetlab.py`, `gen_mac`
(lines 10-18)

`"52:54:00:%02x:%02x:%02x" % (randint(0,255), randint(0,255), last_octet)`:
the two random middle bytes are passed in as explicit arguments.  `%02x`
renders a value below 256 as exactly two lowercase hex digits
(`Nat.digitChar` produces `0-9a-f`). -/

def hex02 (n : Nat) : String :=
  if n < 256 then ⟨[Nat.digitChar (n / 16), Nat.digitChar (n % 16)]⟩
  else ⟨Nat.toDigits 16 n⟩

def gen_mac (r1 r2 last_octet : Nat) : String :=
  "52:54:00:" ++ hex02 r1 ++ ":" ++ hex02 r2 ++ ":" ++ hex02 last_octet

/-- Split a character list at `':'` separators, as reading the colon-
separated octets of a MAC address string. -/
def splitColon : List Char → List (List Char)
  | [] => [[]]
  | c :: cs =>
      if c = ':' then [] :: splitColon cs
      else
        match splitColon cs with
        | [] => [[c]]
        | f :: rest => (c :: f) :: rest

/-- The octet fields of a MAC address string. -/
def mac_octets (s : String) : List String :=
  (splitColon s.data).map fun l => ⟨l⟩

theorem digitChar_ne_colon : ∀ d, d < 16 → Nat.digitChar d ≠ ':' := by decide

/-- Numeric value of a lowercase hex digit. -/
def hex_char_val (c : Char) : Nat :=
  if c.toNat ≥ 97 then c.toNat - 87 else c.toNat - 48

/-- Numeric value of a two-hex-digit octet field. -/
def hex_pair_val (s : String) : Nat :=
  match s.data with
  | [a, b] => hex_char_val a * 16 + hex_char_val b
  | _ => 0

set_option maxRecDepth 4096 in
theorem hex_pair_val_hex02 : ∀ k, k < 256 → hex_pair_val (hex02 k) = k := by decide

/-- C8 (counterexample): `gen_mac(5)` (with middle bytes 0, 0) produces
`52:54:00:00:00:05`; its third octet is `00`, not the requested last
octet 5 (rendered `05`).  The third octet is the last OUI octet and never
depends on the argument. -/
theorem gen_mac_third_octet_counterexample :
    mac_octets (gen_mac 0 0 5) = ["52", "54", "00", "00", "00", "05"]
    ∧ (mac_octets (gen_mac 0 0 5))[2]? = some "00"
    ∧ hex02 5 = "05"
    ∧ ("00" : String) ≠ "05" := by
  decide

/-- C8 (amended): for every `k < 256` and every choice of the two random
middle bytes, `gen_mac` returns a MAC string whose first three octets
(the OUI) are `52:54:00` - so the third octet is always `00` - whose
fourth and fifth octets render the two random bytes, and whose last
(sixth) octet renders exactly `k`. -/
theorem gen_mac_octets (r1 r2 k : Nat) (h1 : r1 < 256) (h2 : r2 < 256) (hk : k < 256) :
    mac_octets (gen_mac r1 r2 k) = ["52", "54", "00", hex02 r1, hex02 r2, hex02 k]
    ∧ hex_pair_val (hex02 k) = k := by
  refine ⟨?_, hex_pair_val_hex02 k hk⟩
  have e1 : hex02 r1 = ⟨[Nat.digitChar (r1 / 16), Nat.digitChar (r1 % 16)]⟩ := by
    simp [hex02, h1]
  have e2 : hex02 r2 = ⟨[Nat.digitChar (r2 / 16), Nat.digitChar (r2 % 16)]⟩ := by
    simp [hex02, h2]
  have e3 : hex02 k = ⟨[Nat.digitChar (k / 16), Nat.digitChar (k % 16)]⟩ := by
    simp [hex02, hk]
  have n1 : Nat.digitChar (r1 / 16) ≠ ':' := digitChar_ne_colon _ (by omega)
  have n2 : Nat.digitChar (r1 % 16) ≠ ':' := digitChar_ne_colon _ (by omega)
  have n3 : Nat.digitChar (r2 / 16) ≠ ':' := digitChar_ne_colon _ (by omega)
  have n4 : Nat.digitChar (r2 % 16) ≠ ':' := digitChar_ne_colon _ (by omega)
  have n5 : Nat.digitChar (k / 16) ≠ ':' := digitChar_ne_colon _ (by omega)
  have n6 : Nat.digitChar (k % 16) ≠ ':' := digitChar_ne_colon _ (by omega)
  simp only [mac_octets, gen_mac, e1, e2, e3]
  have hdata : (("52:54:00:" ++ (⟨[Nat.digitChar (r1 / 16), Nat.digitChar (r1 % 16)]⟩ : String)
        ++ ":" ++ (⟨[Nat.digitChar (r2 / 16), Nat.digitChar (r2 % 16)]⟩ : String)
        ++ ":" ++ (⟨[Nat.digitChar (k / 16), Nat.digitChar (k % 16)]⟩ : String)) : String).data
      = '5' :: '2' :: ':' :: '5' :: '4' :: ':' :: '0' :: '0' :: ':'
        :: Nat.digitChar (r1 / 16) :: Nat.digitChar (r1 % 16) :: ':'
        :: Nat.digitChar (r2 / 16) :: Nat.digitChar (r2 % 16) :: ':'
        :: [Nat.digitChar (k / 16), Nat.digitChar (k % 16)] := rfl
  rw [hdata]
  simp [splitColon, n1, n2, n3, n4, n5, n6]

theorem gen_mac_octets_witness :
    mac_octets (gen_mac 171 205 239) = ["52", "54", "00", hex02 171, hex02 205, hex02 239]
    ∧ hex_pair_val (hex02 239) = 239 :=
  gen_mac_octets 171 205 239 (by decide) (by decide) (by decide)

/-! ### NIC and serial-port emulator arguments

From `common/vrnetlab.py`, `VM.__init__` (line 68: serial arg
`"telnet:0.0.0.0:50%02d,server,nowait" % self.num`) and `VM.gen_nics`
(lines 125-136); `sros/docker/launch.py`, `SROS_lc.gen_nics`
(lines 324-338); `xrv/docker/launch_xrv.py`, `XRV.start_vm`
(lines 122-132).

`pad2` is Python's `%02d`; `hex_lower` is `%x`; the random MAC middle
bytes are supplied through a `rand` oracle. -/

def pad2 (n : Nat) : String := if n < 10 then "0" ++ Nat.repr n else Nat.repr n

def hex_lower (n : Nat) : String := ⟨Nat.toDigits 16 n⟩

/-- The `-serial` argument of `VM.__init__` for a VM with `num = slot`. -/
def vm_serial_arg (num : Nat) : String :=
  "telnet:0.0.0.0:50" ++ pad2 num ++ ",server,nowait"

/-- The `-device` argument of `VM.gen_nics` and `SROS_lc.gen_nics` for
NIC index `i` with random bytes `r1`, `r2`. -/
def vm_device_arg (nic_type : String) (r1 r2 i : Nat) : String :=
  nic_type ++ ",netdev=p" ++ pad2 i ++ ",mac=" ++ gen_mac r1 r2 i

/-- The `-netdev` argument of `VM.gen_nics` and `SROS_lc.gen_nics` for
NIC index `i`:  `"socket,id=p%(i)02d,listen=:100%(i)02d"`. -/
def vm_netdev_arg (i : Nat) : String :=
  "socket,id=p" ++ pad2 i ++ ",listen=:100" ++ pad2 i

/-- `VM.gen_nics`: NIC indices `range(1, num_nics)`. -/
def vm_gen_nics (nic_type : String) (rand : Nat → Nat × Nat) (num_nics : Nat) : List String :=
  (List.range' 1 (num_nics - 1)).flatMap fun i =>
    ["-device", vm_device_arg nic_type (rand i).1 (rand i).2 i, "-netdev", vm_netdev_arg i]

/-- `SROS_lc.gen_nics`: per-chassis NIC indices `offset + j + 1` for `j`
in `range(0, num_nics)` with `offset = 6 * (slot - 1)`. -/
def sros_lc_nic_indices (slot num_nics : Nat) : List Nat :=
  (List.range num_nics).map fun j => 6 * (slot - 1) + j + 1

def sros_lc_gen_nics (nic_type : String) (rand : Nat → Nat × Nat)
    (slot num_nics : Nat) : List String :=
  (sros_lc_nic_indices slot num_nics).flatMap fun i =>
    ["-device", vm_device_arg nic_type (rand i).1 (rand i).2 i, "-netdev", vm_netdev_arg i]

/-- The `-device` argument of `XRV.start_vm` for NIC `i`: interpolates
`i` into the `netdev=p%(i)02d` reference. -/
def xrv_device_arg (r1 r2 i : Nat) : String :=
  "e1000,netdev=p" ++ pad2 i ++ ",mac=" ++ gen_mac r1 r2 i
    ++ ",bus=pci." ++ Nat.repr (i / 26 + 1) ++ ",addr=0x" ++ hex_lower (i % 26 + 1)

/-- The `-netdev` argument of `XRV.start_vm` for NIC `i`: the source
interpolates `i + 1` ("offset by one if we want to mgmt on 0 later") into
BOTH the `id=p%(i)02d` and the `listen=:100%(i)02d` fields. -/
def xrv_netdev_arg (i : Nat) : String :=
  "socket,id=p" ++ pad2 (i + 1) ++ ",listen=:100" ++ pad2 (i + 1)

def find_after (key : List Char) : List Char → Option (List Char)
  | [] => if key = [] then some [] else none
  | c :: cs =>
      if key.isPrefixOf (c :: cs) then some ((c :: cs).drop key.length)
      else find_after key cs

/-- The value of a `key=`-prefixed field of a comma-separated qemu
argument: the text between the first occurrence of `key` and the next
comma. -/
def arg_field (key arg : String) : Option String :=
  (find_after key.data arg.data).map fun r => ⟨r.takeWhile (fun c => c != ',')⟩

set_option maxRecDepth 8192 in
/-- C3 (code bug): the common `VM.gen_nics` and `SROS_lc.gen_nics` emit a
`-device` whose `netdev=` reference equals the `id=` of its `-netdev`,
listening on port `10000 + i` (shown at `i = 1`: both `p01`, port 10001 =
`10000 + 1`), the serial console sits on `5000 + slot`, and a line card's
slot-2 indices are exactly `6*(2-1)+1 .. 6*2`; but in `XRV.start_vm` NIC
0's `-device` references netdev id `p00` while its `-netdev` declares id
`p01` (listening on 10001), so the claimed id correspondence fails for
the IOS-XR variant. -/
theorem xrv_nic_netdev_id_mismatch :
    arg_field "netdev=" (xrv_device_arg 0 0 0) = some "p00"
    ∧ arg_field "id=" (xrv_netdev_arg 0) = some "p01"
    ∧ arg_field "listen=" (xrv_netdev_arg 0) = some ":10001"
    ∧ ("p00" : String) ≠ "p01"
    ∧ arg_field "netdev=" (vm_device_arg "e1000" 0 0 1) = some "p01"
    ∧ arg_field "id=" (vm_netdev_arg 1) = some "p01"
    ∧ arg_field "listen=" (vm_netdev_arg 1) = some ":10001"
    ∧ (":10001" : String) = ":" ++ Nat.repr (10000 + 1)
    ∧ vm_serial_arg 3 = "telnet:0.0.0.0:" ++ Nat.repr (5000 + 3) ++ ",server,nowait"
    ∧ sros_lc_nic_indices 2 6 = [7, 8, 9, 10, 11, 12]
    ∧ vm_gen_nics "e1000" (fun _ => (0, 0)) 3
        = ["-device", vm_device_arg "e1000" 0 0 1, "-netdev", vm_netdev_arg 1,
           "-device", vm_device_arg "e1000" 0 0 2, "-netdev", vm_netdev_arg 2]
    ∧ sros_lc_gen_nics "e1000" (fun _ => (0, 0)) 2 6
        = (sros_lc_nic_indices 2 6).flatMap fun i =>
            ["-device", vm_device_arg "e1000" 0 0 i, "-netdev", vm_netdev_arg i] := by
  decide
